import Mathlib

/-!
Verification of the n-body simulation core (`src/main.rs`).

The physics core is embedded shallowly: bevy components (`Mass`,
`Transform.translation`, `Velocity`, `Acceleration`) become fields of a
`Body` record over exact rationals, the three physics systems
(`update_acceleration`, `update_velocity`, `movement`) become functions on
`List Body` (the query's fixed enumeration order), and glam's
`try_normalize` is modelled with an explicit square-root oracle
`sq : ℚ → ℚ` standing for the machine `sqrt`, so every definition stays
computable.  `f32` arithmetic is idealised as exact rational arithmetic;
theorems that evaluate concrete scenarios instantiate `sq` with its exact
values (square roots of perfect squares), where the idealisation and the
machine agree.
-/

/-- Planar vector, modelling glam `Vec2` in exact arithmetic. -/
@[ext]
structure Vec2 where
  x : ℚ
  y : ℚ
deriving DecidableEq, Repr

/-- Spatial vector, modelling glam `Vec3` (bevy `Transform.translation`). -/
@[ext]
structure Vec3 where
  x : ℚ
  y : ℚ
  z : ℚ
deriving DecidableEq, Repr

instance : Zero Vec2 := ⟨⟨0, 0⟩⟩

instance : Add Vec2 := ⟨fun a b => ⟨a.x + b.x, a.y + b.y⟩⟩

instance : Neg Vec2 := ⟨fun a => ⟨-a.x, -a.y⟩⟩

instance : Sub Vec2 := ⟨fun a b => ⟨a.x - b.x, a.y - b.y⟩⟩

instance : AddCommGroup Vec2 where
  nsmul := nsmulRec
  zsmul := zsmulRec
  add_assoc a b c := by ext <;> exact add_assoc ..
  zero_add a := by ext <;> exact zero_add ..
  add_zero a := by ext <;> exact add_zero ..
  add_comm a b := by ext <;> exact add_comm ..
  sub_eq_add_neg a b := by ext <;> exact sub_eq_add_neg ..
  neg_add_cancel a := by ext <;> exact neg_add_cancel ..

@[simp] theorem Vec2.zero_x : (0 : Vec2).x = 0 := rfl

@[simp] theorem Vec2.zero_y : (0 : Vec2).y = 0 := rfl

@[simp] theorem Vec2.add_x (a b : Vec2) : (a + b).x = a.x + b.x := rfl

@[simp] theorem Vec2.add_y (a b : Vec2) : (a + b).y = a.y + b.y := rfl

@[simp] theorem Vec2.neg_x (a : Vec2) : (-a).x = -a.x := rfl

@[simp] theorem Vec2.neg_y (a : Vec2) : (-a).y = -a.y := rfl

@[simp] theorem Vec2.sub_x (a b : Vec2) : (a - b).x = a.x - b.x := rfl

@[simp] theorem Vec2.sub_y (a b : Vec2) : (a - b).y = a.y - b.y := rfl

instance : Zero Vec3 := ⟨⟨0, 0, 0⟩⟩

instance : Add Vec3 := ⟨fun a b => ⟨a.x + b.x, a.y + b.y, a.z + b.z⟩⟩

instance : Sub Vec3 := ⟨fun a b => ⟨a.x - b.x, a.y - b.y, a.z - b.z⟩⟩

@[simp] theorem Vec3.zero_x3 : (0 : Vec3).x = 0 := rfl

@[simp] theorem Vec3.zero_y3 : (0 : Vec3).y = 0 := rfl

@[simp] theorem Vec3.zero_z : (0 : Vec3).z = 0 := rfl

@[simp] theorem Vec3.add_x3 (a b : Vec3) : (a + b).x = a.x + b.x := rfl

@[simp] theorem Vec3.add_y3 (a b : Vec3) : (a + b).y = a.y + b.y := rfl

@[simp] theorem Vec3.add_z (a b : Vec3) : (a + b).z = a.z + b.z := rfl

@[simp] theorem Vec3.sub_x3 (a b : Vec3) : (a - b).x = a.x - b.x := rfl

@[simp] theorem Vec3.sub_y3 (a b : Vec3) : (a - b).y = a.y - b.y := rfl

@[simp] theorem Vec3.sub_z (a b : Vec3) : (a - b).z = a.z - b.z := rfl

@[simp] theorem Vec2.add_mk (a b c d : ℚ) :
    (⟨a, b⟩ + ⟨c, d⟩ : Vec2) = ⟨a + c, b + d⟩ := rfl

@[simp] theorem Vec2.sub_mk (a b c d : ℚ) :
    (⟨a, b⟩ - ⟨c, d⟩ : Vec2) = ⟨a - c, b - d⟩ := rfl

@[simp] theorem Vec2.neg_mk (a b : ℚ) : (-(⟨a, b⟩ : Vec2)) = ⟨-a, -b⟩ := rfl

theorem Vec2.zero_def : (0 : Vec2) = ⟨0, 0⟩ := rfl

@[simp] theorem Vec3.add_mk3 (a b c d e f : ℚ) :
    (⟨a, b, c⟩ + ⟨d, e, f⟩ : Vec3) = ⟨a + d, b + e, c + f⟩ := rfl

@[simp] theorem Vec3.sub_mk3 (a b c d e f : ℚ) :
    (⟨a, b, c⟩ - ⟨d, e, f⟩ : Vec3) = ⟨a - d, b - e, c - f⟩ := rfl

theorem Vec3.zero_def3 : (0 : Vec3) = ⟨0, 0, 0⟩ := rfl

@[simp] theorem Vec2.mk_eq_zero (a b : ℚ) :
    (⟨a, b⟩ : Vec2) = 0 ↔ a = 0 ∧ b = 0 := by
  rw [Vec2.zero_def, Vec2.mk.injEq]

@[simp] theorem Vec3.mk_eq_zero3 (a b c : ℚ) :
    (⟨a, b, c⟩ : Vec3) = 0 ↔ a = 0 ∧ b = 0 ∧ c = 0 := by
  rw [Vec3.zero_def3, Vec3.mk.injEq]

/-- Scalar multiple of a `Vec2` (glam `Vec2 * f32`). -/
def Vec2.scale (v : Vec2) (c : ℚ) : Vec2 := ⟨v.x * c, v.y * c⟩

/-- Scalar multiple of a `Vec3` (glam `Vec3 * f32`). -/
def Vec3.scale (v : Vec3) (c : ℚ) : Vec3 := ⟨v.x * c, v.y * c, v.z * c⟩

/-- Componentwise division of a `Vec2` by a scalar (`acc.0 /= mass.0`). -/
def Vec2.divScalar (v : Vec2) (c : ℚ) : Vec2 := ⟨v.x / c, v.y / c⟩

/-- glam `Vec3::length_squared`. -/
def Vec3.lengthSquared (v : Vec3) : ℚ := v.x * v.x + v.y * v.y + v.z * v.z

/-- glam `Vec3::try_normalize`: `None` exactly on the zero vector (in exact
arithmetic the reciprocal length `1 / sqrt(|v|²)` is finite and positive iff
`v ≠ 0`); otherwise the vector scaled by the reciprocal length, with the
square root taken by the oracle `sq`. -/
def Vec3.tryNormalize (sq : ℚ → ℚ) (v : Vec3) : Option Vec3 :=
  if v = 0 then none else some (v.scale (1 / sq v.lengthSquared))

/-- One body: bevy components `Mass`, `Transform` (its `translation`),
`Velocity`, `Acceleration` of the `BodyBundle`. -/
@[ext]
structure Body where
  mass : ℚ
  pos : Vec3
  vel : Vec2
  acc : Vec2
deriving DecidableEq, Repr

/-- `BodyBundle::new`: translation `(pos.x, pos.y, 1.0)`, zero initial
acceleration, mass stored unchanged (no validation in the source). -/
def BodyBundle.new (mass : ℚ) (pos : Vec2) (vel : Vec2) : Body :=
  { mass := mass, pos := ⟨pos.x, pos.y, 1⟩, vel := vel, acc := ⟨0, 0⟩ }

/-- The gravitational constant: the literal `1.0` in
`let magnitude = 1.0 * mass.0 * mass2.0 / diff.length_squared()`. -/
def G : ℚ := 1

/-- `const DT: f32 = 1.5`. -/
def DT : ℚ := 3 / 2

/-- The force vector `f` the source computes for the current body `b`
against an already-visited body `p`: `diff = b.pos - p.pos`; if
`try_normalize` fails (coincident bodies) there is no contribution (`0`),
otherwise `f = normalize(diff) * (G * b.mass * p.mass / |diff|²)` truncated
to its x/y components. -/
def forceOn (sq : ℚ → ℚ) (b p : Body) : Vec2 :=
  match Vec3.tryNormalize sq (b.pos - p.pos) with
  | none => 0
  | some dir =>
    let force := dir.scale (G * b.mass * p.mass / (b.pos - p.pos).lengthSquared)
    ⟨force.x, force.y⟩

/-- The inner loop of `update_acceleration`: the current body `b` is played
against every already-visited body in order; `acc.0 -= f` on `b`,
`acc2.0 += f` on the visited body. -/
def innerPass (sq : ℚ → ℚ) (b : Body) : List Body → Body × List Body
  | [] => (b, [])
  | p :: ps =>
    match Vec3.tryNormalize sq (b.pos - p.pos) with
    | none =>
      let r := innerPass sq b ps
      (r.1, p :: r.2)
    | some dir =>
      let force := dir.scale (G * b.mass * p.mass / (b.pos - p.pos).lengthSquared)
      let f : Vec2 := ⟨force.x, force.y⟩
      let r := innerPass sq { b with acc := b.acc - f } ps
      (r.1, { p with acc := p.acc + f } :: r.2)

/-- The outer loop of `update_acceleration`: each queried body runs the
inner loop against the `bodies` vector built so far, then is pushed. -/
def outerPass (sq : ℚ → ℚ) (done : List Body) : List Body → List Body
  | [] => done
  | b :: rest =>
    outerPass sq ((innerPass sq b done).2 ++ [(innerPass sq b done).1]) rest

/-- `update_acceleration`: pairwise accumulation followed by
`acc.0 /= mass.0` for every body.  Note the source never resets `acc` to
zero first: forces accumulate on top of the previous step's acceleration. -/
def update_acceleration (sq : ℚ → ℚ) (bs : List Body) : List Body :=
  (outerPass sq [] bs).map (fun b => { b with acc := b.acc.divScalar b.mass })

/-- `update_velocity`: `vel.0 += acc.0 * DT`. -/
def update_velocity (bs : List Body) : List Body :=
  bs.map (fun b => { b with vel := b.vel + b.acc.scale DT })

/-- `movement`: `transform.translation += Vec3::new(vel.0[0], vel.0[1], 0.0) * DT`. -/
def movement (bs : List Body) : List Body :=
  bs.map (fun b => { b with pos := b.pos + (Vec3.scale ⟨b.vel.x, b.vel.y, 0⟩ DT) })

/-- One simulation step: the `SystemSet` runs `update_acceleration`, then
`update_velocity` (labelled `.after(UpdateAcceleration)`), then `movement`
(labelled `.after(UpdateVelocity)`). -/
def step (sq : ℚ → ℚ) (bs : List Body) : List Body :=
  movement (update_velocity (update_acceleration sq bs))

/-- `n` simulation steps. -/
def stepN (sq : ℚ → ℚ) : Nat → List Body → List Body
  | 0, bs => bs
  | n + 1, bs => stepN sq n (step sq bs)

/-- Total momentum `Σ mass[i] * velocity[i]`. -/
def momentum (bs : List Body) : Vec2 :=
  (bs.map (fun b => b.vel.scale b.mass)).sum

/-- The body templates spawned in `setup` (physics fields only; radius is
`mass / density`, display-only, as are the colors). -/
structure BodyTemplate where
  mass : ℚ
  radius : ℚ
  pos : Vec2
  vel : Vec2

/-- `BodyTemplate::new`. -/
def BodyTemplate.new (mass density : ℚ) (pos vel : Vec2) : BodyTemplate :=
  { mass := mass, radius := mass / density, pos := pos, vel := vel }

/-- The scene of `setup`: yellow 200 at the origin, blue 50 at (100,0)
moving down, red 50 at (-100,0) moving up. -/
def setupBodies : List Body :=
  [ BodyTemplate.new 200 10 ⟨0, 0⟩ ⟨0, 0⟩,
    BodyTemplate.new 50 5 ⟨100, 0⟩ ⟨0, -1⟩,
    BodyTemplate.new 50 5 ⟨-100, 0⟩ ⟨0, 1⟩ ].map
    (fun t => BodyBundle.new t.mass t.pos t.vel)

/-- The spec's concrete test scenario (§8): two bodies, masses 200 and 50. -/
def twoBodyInit : List Body :=
  [BodyBundle.new 200 ⟨0, 0⟩ ⟨0, 0⟩, BodyBundle.new 50 ⟨100, 0⟩ ⟨0, -1⟩]

/-- A collinear variant of the two-body scenario, both bodies at rest, so
that every displacement arising in two steps lies on the x-axis and the
square roots the code takes are square roots of perfect squares. -/
def twoBodyRest : List Body :=
  [BodyBundle.new 200 ⟨0, 0⟩ ⟨0, 0⟩, BodyBundle.new 50 ⟨100, 0⟩ ⟨0, 0⟩]

/-- A square-root oracle that is exact on every argument the concrete
scenarios reach: `sqrt 10000 = 100`, `sqrt 40000 = 200`, and the square of
the step-2 separation `15991/160` of `twoBodyRest`. -/
def sqW : ℚ → ℚ := fun q =>
  if q = 10000 then 100
  else if q = 40000 then 200
  else if q = (15991 / 160) ^ 2 then 15991 / 160
  else 0

/-! ### Closed form of the force accumulator -/

@[simp] theorem Body.eta (b : Body) : (⟨b.mass, b.pos, b.vel, b.acc⟩ : Body) = b := rfl

@[simp] theorem forceOn_acc_left (sq : ℚ → ℚ) (b : Body) (a : Vec2) :
    forceOn sq { b with acc := a } = forceOn sq b := rfl

@[simp] theorem forceOn_acc_right (sq : ℚ → ℚ) (b p : Body) (a : Vec2) :
    forceOn sq b { p with acc := a } = forceOn sq b p := rfl

/-- `forceOn` reads only positions and masses. -/
theorem forceOn_congr (sq : ℚ → ℚ) {b b' p p' : Body} (hbp : b.pos = b'.pos)
    (hbm : b.mass = b'.mass) (hpp : p.pos = p'.pos) (hpm : p.mass = p'.mass) :
    forceOn sq b p = forceOn sq b' p' := by
  cases b; cases b'; cases p; cases p'
  simp only at hbp hbm hpp hpm
  subst hbp; subst hbm; subst hpp; subst hpm
  rfl

/-- One unfolding of the inner loop, with the per-pair force factored out
as `forceOn` (a skipped coincident pair is a zero contribution). -/
theorem innerPass_cons (sq : ℚ → ℚ) (b p : Body) (ps : List Body) :
    innerPass sq b (p :: ps) =
      ((innerPass sq { b with acc := b.acc - forceOn sq b p } ps).1,
       { p with acc := p.acc + forceOn sq b p }
         :: (innerPass sq { b with acc := b.acc - forceOn sq b p } ps).2) := by
  cases h : Vec3.tryNormalize sq (b.pos - p.pos) with
  | none =>
    have hf : forceOn sq b p = 0 := by simp only [forceOn, h]
    simp only [innerPass, h, hf, sub_zero, add_zero, Body.eta]
  | some dir =>
    have hf : forceOn sq b p =
        ⟨(dir.scale (G * b.mass * p.mass / (b.pos - p.pos).lengthSquared)).x,
         (dir.scale (G * b.mass * p.mass / (b.pos - p.pos).lengthSquared)).y⟩ := by
      simp only [forceOn, h]
    simp only [innerPass, h, hf]

/-- Closed form of the inner loop: the current body's total loses the sum
of its pair forces against the visited prefix, each visited body gains its
own pair force; no other field changes. -/
theorem innerPass_spec (sq : ℚ → ℚ) (ps : List Body) : ∀ b : Body,
    innerPass sq b ps =
      ({ b with acc := b.acc - (ps.map (forceOn sq b)).sum },
       ps.map fun p => { p with acc := p.acc + forceOn sq b p }) := by
  induction ps with
  | nil => intro b; simp [innerPass]
  | cons p ps ih =>
    intro b
    rw [innerPass_cons, ih]
    simp [sub_sub]

/-- The final per-body totals of the accumulation phase, as a closed form:
a body keeps its (stale) incoming `acc`, loses the pair forces against
bodies enumerated before it, gains those of bodies enumerated after it. -/
def pairTotals (sq : ℚ → ℚ) (prior : List Body) : List Body → List Body
  | [] => []
  | b :: rest =>
    { b with acc := b.acc - (prior.map (forceOn sq b)).sum
                          + (rest.map fun c => forceOn sq c b).sum }
      :: pairTotals sq (prior ++ [b]) rest

theorem map_forceOn_congr (sq : ℚ → ℚ) (b : Body) : ∀ (l₁ l₂ : List Body),
    l₁.map (fun p => (p.pos, p.mass)) = l₂.map (fun p => (p.pos, p.mass)) →
    l₁.map (forceOn sq b) = l₂.map (forceOn sq b) := by
  intro l₁
  induction l₁ with
  | nil => intro l₂ h; cases l₂ <;> simp_all
  | cons p l₁ ih =>
    intro l₂ h
    cases l₂ with
    | nil => simp_all
    | cons q l₂ =>
      simp only [List.map_cons, List.cons.injEq, Prod.mk.injEq] at h
      simp only [List.map_cons, ih l₂ h.2,
        forceOn_congr sq rfl rfl h.1.1 h.1.2]

/-- `pairTotals` ignores everything about `prior` except positions and
masses (the accumulated `acc` of the prefix never feeds back). -/
theorem pairTotals_congr (sq : ℚ → ℚ) : ∀ (l prior₁ prior₂ : List Body),
    prior₁.map (fun p => (p.pos, p.mass)) = prior₂.map (fun p => (p.pos, p.mass)) →
    pairTotals sq prior₁ l = pairTotals sq prior₂ l := by
  intro l
  induction l with
  | nil => intro _ _ _; rfl
  | cons b rest ih =>
    intro prior₁ prior₂ h
    simp only [pairTotals, List.cons.injEq]
    refine ⟨by rw [map_forceOn_congr sq b prior₁ prior₂ h], ?_⟩
    exact ih (prior₁ ++ [b]) (prior₂ ++ [b]) (by simp [h])

/-- Closed form of the accumulation phase: the already-visited prefix still
gains every pair force against the remaining bodies, and the remaining
bodies resolve to `pairTotals`. -/
theorem outerPass_spec (sq : ℚ → ℚ) : ∀ (todo done : List Body),
    outerPass sq done todo =
      (done.map fun p => { p with acc := p.acc + (todo.map fun c => forceOn sq c p).sum })
        ++ pairTotals sq done todo := by
  intro todo
  induction todo with
  | nil => intro done; simp [outerPass, pairTotals]
  | cons b rest ih =>
    intro done
    have hcongr : pairTotals sq
        ((done.map fun p => { p with acc := p.acc + forceOn sq b p })
          ++ [{ b with acc := b.acc - (done.map (forceOn sq b)).sum }]) rest
        = pairTotals sq (done ++ [b]) rest := by
      apply pairTotals_congr
      simp [List.map_map, Function.comp]
    simp only [outerPass, innerPass_spec, ih, hcongr, pairTotals]
    rw [List.map_append, List.map_map]
    simp only [List.map_cons, List.sum_cons, Function.comp, forceOn_acc_right,
      List.map_singleton, List.append_assoc, List.singleton_append, add_assoc,
      List.map_nil, List.cons_append, List.nil_append]
    congr 1
    apply List.map_congr_left
    intro p _
    simp [Function.comp, forceOn_acc_right, add_assoc]

/-- Indexed closed form of `pairTotals`: body `k` keeps its incoming
acceleration, minus the pair forces against `prior` and the bodies before
it, plus the pair forces of the bodies after it — each unordered pair of
list positions contributing exactly once. -/
theorem pairTotals_getElem (sq : ℚ → ℚ) : ∀ (l prior : List Body) (k : Nat)
    (hk : k < l.length),
    (pairTotals sq prior l)[k]? =
      some { l.get ⟨k, hk⟩ with
        acc := (l.get ⟨k, hk⟩).acc
          - ((prior ++ l.take k).map (forceOn sq (l.get ⟨k, hk⟩))).sum
          + ((l.drop (k + 1)).map fun c => forceOn sq c (l.get ⟨k, hk⟩)).sum } := by
  intro l
  induction l with
  | nil => intro prior k hk; simp at hk
  | cons b rest ih =>
    intro prior k hk
    cases k with
    | zero =>
      simp [pairTotals]
    | succ k =>
      have hk' : k < rest.length := Nat.lt_of_succ_lt_succ hk
      simp only [pairTotals, List.getElem?_cons_succ]
      rw [ih (prior ++ [b]) k hk']
      simp [List.append_assoc, List.take_succ_cons, List.drop_succ_cons]

/-- `pairTotals` changes only accelerations: masses, positions and
velocities pass through unchanged, in order. -/
theorem pairTotals_proj (sq : ℚ → ℚ) : ∀ (l prior : List Body),
    (pairTotals sq prior l).map (fun b => (b.mass, b.pos, b.vel)) =
      l.map (fun b => (b.mass, b.pos, b.vel)) := by
  intro l
  induction l with
  | nil => intro prior; rfl
  | cons b rest ih => intro prior; simp [pairTotals, ih]

/-- Indexed closed form of the whole `update_acceleration` system. -/
theorem update_acceleration_getElem (sq : ℚ → ℚ) (bs : List Body) (k : Nat)
    (hk : k < bs.length) :
    (update_acceleration sq bs)[k]? =
      some { bs.get ⟨k, hk⟩ with
        acc := Vec2.divScalar
          ((bs.get ⟨k, hk⟩).acc
            - ((bs.take k).map (forceOn sq (bs.get ⟨k, hk⟩))).sum
            + ((bs.drop (k + 1)).map fun c => forceOn sq c (bs.get ⟨k, hk⟩)).sum)
          (bs.get ⟨k, hk⟩).mass } := by
  unfold update_acceleration
  rw [outerPass_spec]
  simp only [List.map_nil, List.nil_append, List.getElem?_map]
  rw [pairTotals_getElem sq bs [] k hk]
  simp

/-- `update_acceleration` changes only accelerations. -/
theorem update_acceleration_proj (sq : ℚ → ℚ) (bs : List Body) :
    (update_acceleration sq bs).map (fun b => (b.mass, b.pos, b.vel)) =
      bs.map (fun b => (b.mass, b.pos, b.vel)) := by
  unfold update_acceleration
  rw [outerPass_spec]
  simp only [List.map_nil, List.nil_append, List.map_map]
  rw [← pairTotals_proj sq bs []]
  exact List.map_congr_left fun a _ => rfl

/-- Newton's third law at the level of the per-pair force vector: swapping
the two bodies negates the force, whatever the square-root oracle does. -/
theorem forceOn_antisymm (sq : ℚ → ℚ) (b p : Body) :
    forceOn sq b p = -forceOn sq p b := by
  have hsub : p.pos - b.pos =
      ⟨-(b.pos - p.pos).x, -(b.pos - p.pos).y, -(b.pos - p.pos).z⟩ := by
    ext <;> simp [neg_sub]
  by_cases h : b.pos - p.pos = 0
  · have h' : p.pos - b.pos = 0 := by rw [hsub, h]; ext <;> simp
    simp [forceOn, Vec3.tryNormalize, h, h']
  · have h' : p.pos - b.pos ≠ 0 := by
      intro hc
      apply h
      have hx := congrArg Vec3.x hc
      have hy := congrArg Vec3.y hc
      have hz := congrArg Vec3.z hc
      simp only [Vec3.sub_x3, Vec3.sub_y3, Vec3.sub_z, Vec3.zero_x3, Vec3.zero_y3,
        Vec3.zero_z] at hx hy hz
      ext <;> simp <;> linarith
    have hL : (p.pos - b.pos).lengthSquared = (b.pos - p.pos).lengthSquared := by
      simp only [Vec3.lengthSquared, hsub]; ring
    simp only [forceOn, Vec3.tryNormalize, if_neg h, if_neg h', hL]
    ext <;> simp [Vec3.scale, hsub] <;> ring

/-! ### Per-stage characterisations -/

/-- `update_velocity` is an in-place map over the bodies. -/
theorem update_velocity_getElem (bs : List Body) (i : Nat) :
    (update_velocity bs)[i]? =
      bs[i]?.map fun b => { b with vel := b.vel + b.acc.scale DT } := by
  unfold update_velocity
  exact List.getElem?_map ..

/-- `movement` is an in-place map over the bodies; written so that the
untouched `z` coordinate is explicit (`0.0 * DT` is added to it). -/
theorem movement_getElem (bs : List Body) (i : Nat) :
    (movement bs)[i]? =
      bs[i]?.map fun b =>
        { b with pos := ⟨b.pos.x + b.vel.x * DT, b.pos.y + b.vel.y * DT, b.pos.z⟩ } := by
  unfold movement
  rw [List.getElem?_map]
  cases bs[i]? with
  | none => rfl
  | some b =>
    show some _ = some _
    congr 1
    ext <;> simp [Vec3.scale]

/-- Positions (hence their `z` components) survive `update_acceleration`. -/
theorem update_acceleration_map_pos (sq : ℚ → ℚ) (bs : List Body) :
    (update_acceleration sq bs).map Body.pos = bs.map Body.pos := by
  have h := congrArg (List.map fun t : ℚ × Vec3 × Vec2 => t.2.1)
    (update_acceleration_proj sq bs)
  simpa [List.map_map, Function.comp] using h

/-- Every body of a `step` keeps the `z = 1` plane. -/
theorem step_preserves_z (sq : ℚ → ℚ) (bs : List Body)
    (hz : ∀ b ∈ bs, b.pos.z = 1) : ∀ b ∈ step sq bs, b.pos.z = 1 := by
  intro b hb
  unfold step movement at hb
  obtain ⟨c, hc, rfl⟩ := List.mem_map.mp hb
  unfold update_velocity at hc
  obtain ⟨d, hd, rfl⟩ := List.mem_map.mp hc
  have hdz : d.pos.z = 1 := by
    have hmem : d.pos ∈ bs.map Body.pos := by
      rw [← update_acceleration_map_pos sq bs]
      exact List.mem_map_of_mem Body.pos hd
    obtain ⟨e, he, hep⟩ := List.mem_map.mp hmem
    rw [← hep]
    exact hz e he
  simp [Vec3.scale, hdz]

/-- Iterated steps keep the `z = 1` plane. -/
theorem stepN_preserves_z (sq : ℚ → ℚ) (n : Nat) : ∀ (bs : List Body),
    (∀ b ∈ bs, b.pos.z = 1) → ∀ b ∈ stepN sq n bs, b.pos.z = 1 := by
  induction n with
  | zero => intro bs hz; exact hz
  | succ n ih =>
    intro bs hz
    exact ih (step sq bs) (step_preserves_z sq bs hz)

/-! ### The claims -/

/-- C1: every simulation step runs the three systems in order
`update_acceleration`, `update_velocity`, `movement`; each body's velocity
becomes `velocity_old + acceleration * DT` with the acceleration the force
accumulator just produced, and only then its position becomes
`position_old + velocity_new * DT` using the already-updated velocity
(semi-implicit Euler), with the same constant `DT = 1.5` in both
integrators. -/
theorem step_semi_implicit_euler (sq : ℚ → ℚ) (bs : List Body) (i : Nat)
    (bi : Body) (h : bs[i]? = some bi) :
    DT = 3 / 2 ∧ ∃ a : Vec2,
      (update_acceleration sq bs)[i]? = some { bi with acc := a } ∧
      (update_velocity (update_acceleration sq bs))[i]? =
        some { bi with acc := a, vel := bi.vel + a.scale DT } ∧
      (step sq bs)[i]? = some { bi with
          acc := a,
          vel := bi.vel + a.scale DT,
          pos := bi.pos + Vec3.scale ⟨(bi.vel + a.scale DT).x,
            (bi.vel + a.scale DT).y, 0⟩ DT } := by
  have hi : i < bs.length := by
    by_contra hlt
    rw [List.getElem?_eq_none (Nat.le_of_not_lt hlt)] at h
    exact Option.noConfusion h
  have hbi : bs.get ⟨i, hi⟩ = bi := by
    rw [List.getElem?_eq_getElem hi] at h
    exact Option.some.inj h
  refine ⟨rfl, Vec2.divScalar
      (bi.acc - ((bs.take i).map (forceOn sq bi)).sum
        + ((bs.drop (i + 1)).map fun c => forceOn sq c bi).sum) bi.mass,
      ?_, ?_, ?_⟩
  · have hua := update_acceleration_getElem sq bs i hi
    rw [hbi] at hua
    exact hua
  · rw [update_velocity_getElem]
    have hua := update_acceleration_getElem sq bs i hi
    rw [hbi] at hua
    rw [hua]
    rfl
  · show (movement (update_velocity (update_acceleration sq bs)))[i]? = _
    rw [movement_getElem, update_velocity_getElem]
    have hua := update_acceleration_getElem sq bs i hi
    rw [hbi] at hua
    rw [hua]
    show some _ = some _
    congr 1
    ext <;> simp [Vec3.scale]

/-- Witness for C1: the scheme instantiated on a concrete singleton scene. -/
theorem step_semi_implicit_euler_witness :
    [BodyBundle.new 200 ⟨0, 0⟩ ⟨0, 0⟩][0]? = some (BodyBundle.new 200 ⟨0, 0⟩ ⟨0, 0⟩) ∧
    (DT = 3 / 2 ∧ ∃ a : Vec2,
      (update_acceleration sqW [BodyBundle.new 200 ⟨0, 0⟩ ⟨0, 0⟩])[0]? =
        some { BodyBundle.new 200 ⟨0, 0⟩ ⟨0, 0⟩ with acc := a } ∧
      (update_velocity (update_acceleration sqW [BodyBundle.new 200 ⟨0, 0⟩ ⟨0, 0⟩]))[0]? =
        some { BodyBundle.new 200 ⟨0, 0⟩ ⟨0, 0⟩ with
            acc := a,
            vel := (BodyBundle.new 200 ⟨0, 0⟩ ⟨0, 0⟩).vel + a.scale DT } ∧
      (step sqW [BodyBundle.new 200 ⟨0, 0⟩ ⟨0, 0⟩])[0]? =
        some { BodyBundle.new 200 ⟨0, 0⟩ ⟨0, 0⟩ with
            acc := a,
            vel := (BodyBundle.new 200 ⟨0, 0⟩ ⟨0, 0⟩).vel + a.scale DT,
            pos := (BodyBundle.new 200 ⟨0, 0⟩ ⟨0, 0⟩).pos + Vec3.scale
              ⟨((BodyBundle.new 200 ⟨0, 0⟩ ⟨0, 0⟩).vel + a.scale DT).x,
               ((BodyBundle.new 200 ⟨0, 0⟩ ⟨0, 0⟩).vel + a.scale DT).y, 0⟩ DT }) :=
  ⟨rfl, step_semi_implicit_euler sqW [BodyBundle.new 200 ⟨0, 0⟩ ⟨0, 0⟩] 0
    (BodyBundle.new 200 ⟨0, 0⟩ ⟨0, 0⟩) rfl⟩

/-- C2: for every pair of list positions the accumulator adds the same force
vector `forceOn` with opposite signs to the two pre-division totals — the
body enumerated later loses each `forceOn` of its predecessors, every body
gains the `forceOn` of each of its successors, each unordered pair appearing
exactly once (`take`/`drop` split); and swapping the bodies of a pair negates
the force vector exactly (equal magnitude, opposite direction). -/
theorem accumulator_pairwise_equal_opposite (sq : ℚ → ℚ) (bs : List Body)
    (k : Nat) (hk : k < bs.length) :
    ((update_acceleration sq bs)[k]? =
      some { bs.get ⟨k, hk⟩ with
        acc := Vec2.divScalar
          ((bs.get ⟨k, hk⟩).acc
            - ((bs.take k).map (forceOn sq (bs.get ⟨k, hk⟩))).sum
            + ((bs.drop (k + 1)).map fun c => forceOn sq c (bs.get ⟨k, hk⟩)).sum)
          (bs.get ⟨k, hk⟩).mass }) ∧
    (∀ b p : Body, forceOn sq b p = -forceOn sq p b) :=
  ⟨update_acceleration_getElem sq bs k hk, forceOn_antisymm sq⟩

/-- Witness for C2 at the spec's concrete two-body scenario, body 1. -/
theorem accumulator_pairwise_equal_opposite_witness :
    1 < twoBodyInit.length ∧
    (((update_acceleration sqW twoBodyInit)[1]? =
      some { twoBodyInit.get ⟨1, by decide⟩ with
        acc := Vec2.divScalar
          ((twoBodyInit.get ⟨1, by decide⟩).acc
            - ((twoBodyInit.take 1).map (forceOn sqW (twoBodyInit.get ⟨1, by decide⟩))).sum
            + ((twoBodyInit.drop 2).map fun c =>
                forceOn sqW c (twoBodyInit.get ⟨1, by decide⟩)).sum)
          (twoBodyInit.get ⟨1, by decide⟩).mass }) ∧
    (∀ b p : Body, forceOn sqW b p = -forceOn sqW p b)) :=
  ⟨by decide, accumulator_pairwise_equal_opposite sqW twoBodyInit 1 (by decide)⟩

/-- C9: `update_velocity` rewrites only the velocity (mass, position and
acceleration pass through), and `movement` rewrites only the x and y
components of the position (mass, velocity, acceleration and the z
component pass through). -/
theorem integrator_frame_conditions (bs : List Body) (i : Nat) :
    ((update_velocity bs)[i]? =
      bs[i]?.map fun b => { b with vel := b.vel + b.acc.scale DT }) ∧
    ((movement bs)[i]? =
      bs[i]?.map fun b =>
        { b with pos := ⟨b.pos.x + b.vel.x * DT, b.pos.y + b.vel.y * DT, b.pos.z⟩ }) :=
  ⟨update_velocity_getElem bs i, movement_getElem bs i⟩

/-- C8: a simulation step is a pure function of the enumerated body list:
two runs of any number of steps from equal initial lists give equal final
states, in particular equal positions and velocities for every body. -/
theorem deterministic_replay (sq : ℚ → ℚ) (n : Nat) (bs₁ bs₂ : List Body)
    (h : bs₁ = bs₂) :
    stepN sq n bs₁ = stepN sq n bs₂ ∧
    (stepN sq n bs₁).map (fun b => (b.pos, b.vel)) =
      (stepN sq n bs₂).map (fun b => (b.pos, b.vel)) := by
  subst h
  exact ⟨rfl, rfl⟩

/-- Witness for C8: two steps replayed from the concrete scenario. -/
theorem deterministic_replay_witness :
    twoBodyInit = twoBodyInit ∧
    (stepN sqW 2 twoBodyInit = stepN sqW 2 twoBodyInit ∧
      (stepN sqW 2 twoBodyInit).map (fun b => (b.pos, b.vel)) =
        (stepN sqW 2 twoBodyInit).map (fun b => (b.pos, b.vel))) :=
  ⟨rfl, deterministic_replay sqW 2 twoBodyInit twoBodyInit rfl⟩

/-- C7 (counterexample): `BodyBundle::new` performs no mass validation at
all — it constructs a body with zero mass, and with negative mass, instead
of rejecting them. -/
theorem construction_accepts_nonpositive_mass :
    (BodyBundle.new 0 ⟨0, 0⟩ ⟨0, 0⟩).mass = 0 ∧
    (BodyBundle.new (-5) ⟨0, 0⟩ ⟨0, 0⟩).mass = -5 := ⟨rfl, rfl⟩

/-- C7 (amended): construction stores the given mass unchanged, with no
rejection of zero or negative values; the only bodies the repository
actually constructs (the `setup` scene) all have strictly positive mass, so
no non-positive mass enters this simulation in practice. -/
theorem construction_stores_mass_unvalidated :
    (∀ (m : ℚ) (p v : Vec2), (BodyBundle.new m p v).mass = m) ∧
    setupBodies.all (fun b => decide (0 < b.mass)) = true := by
  refine ⟨fun m p v => rfl, ?_⟩
  norm_num [setupBodies, BodyBundle.new, BodyTemplate.new, List.all]

/-- C5: a coincident pair is a defined no-op of the force accumulator: the
inner loop leaves both bodies untouched, the pair force is zero in both
directions, and a concrete system of two bodies spawned at the same
position finishes one full step with plain zero accelerations (well-defined
rationals — no division by the zero distance is ever attempted, whatever
the square-root oracle does). -/
theorem coincident_pair_skip (sq : ℚ → ℚ) (b p : Body) (h : b.pos = p.pos) :
    innerPass sq b [p] = (b, [p]) ∧
    forceOn sq b p = 0 ∧ forceOn sq p b = 0 ∧
    (step sq [BodyBundle.new 200 ⟨0, 0⟩ ⟨0, 0⟩,
      BodyBundle.new 50 ⟨0, 0⟩ ⟨0, -1⟩]).map Body.acc = [0, 0] := by
  have hz : b.pos - p.pos = 0 := by rw [h]; ext <;> simp
  have hz2 : p.pos - b.pos = 0 := by rw [h]; ext <;> simp
  refine ⟨?_, ?_, ?_, ?_⟩
  · simp [innerPass, Vec3.tryNormalize, hz]
  · simp [forceOn, Vec3.tryNormalize, hz]
  · simp [forceOn, Vec3.tryNormalize, hz2]
  · norm_num [step, update_acceleration, outerPass, innerPass, update_velocity,
      movement, Vec3.tryNormalize, Vec2.scale, Vec3.scale, Vec2.divScalar,
      Vec3.lengthSquared, BodyBundle.new, G, DT, Vec2.zero_def, Vec3.mk.injEq,
      Vec2.mk.injEq]

/-- Witness for C5: two concrete bodies spawned at the origin. -/
theorem coincident_pair_skip_witness :
    (BodyBundle.new 200 ⟨0, 0⟩ ⟨0, 0⟩).pos = (BodyBundle.new 50 ⟨0, 0⟩ ⟨0, -1⟩).pos ∧
    (innerPass sqW (BodyBundle.new 200 ⟨0, 0⟩ ⟨0, 0⟩) [BodyBundle.new 50 ⟨0, 0⟩ ⟨0, -1⟩] =
        (BodyBundle.new 200 ⟨0, 0⟩ ⟨0, 0⟩, [BodyBundle.new 50 ⟨0, 0⟩ ⟨0, -1⟩]) ∧
      forceOn sqW (BodyBundle.new 200 ⟨0, 0⟩ ⟨0, 0⟩) (BodyBundle.new 50 ⟨0, 0⟩ ⟨0, -1⟩) = 0 ∧
      forceOn sqW (BodyBundle.new 50 ⟨0, 0⟩ ⟨0, -1⟩) (BodyBundle.new 200 ⟨0, 0⟩ ⟨0, 0⟩) = 0 ∧
      (step sqW [BodyBundle.new 200 ⟨0, 0⟩ ⟨0, 0⟩,
        BodyBundle.new 50 ⟨0, 0⟩ ⟨0, -1⟩]).map Body.acc = [0, 0]) :=
  ⟨rfl, coincident_pair_skip sqW (BodyBundle.new 200 ⟨0, 0⟩ ⟨0, 0⟩)
    (BodyBundle.new 50 ⟨0, 0⟩ ⟨0, -1⟩) rfl⟩

/-- C10: construction puts every body on the `z = 1` plane, every stage of
every step keeps it there, and consequently the displacement between any
two bodies always has zero `z` component: the dynamics are purely planar. -/
theorem planar_z_invariant (sq : ℚ → ℚ) (n : Nat) (bs : List Body)
    (hz : ∀ b ∈ bs, b.pos.z = 1) :
    (∀ (m : ℚ) (p v : Vec2), (BodyBundle.new m p v).pos.z = 1) ∧
    (∀ b ∈ stepN sq n bs, b.pos.z = 1) ∧
    (∀ b₁ ∈ stepN sq n bs, ∀ b₂ ∈ stepN sq n bs, (b₁.pos - b₂.pos).z = 0) := by
  refine ⟨fun m p v => rfl, stepN_preserves_z sq n bs hz, ?_⟩
  intro b₁ h₁ b₂ h₂
  have z₁ := stepN_preserves_z sq n bs hz b₁ h₁
  have z₂ := stepN_preserves_z sq n bs hz b₂ h₂
  simp [z₁, z₂]

/-- Witness for C10: one step of the concrete two-body scenario. -/
theorem planar_z_invariant_witness :
    (∀ b ∈ twoBodyInit, b.pos.z = 1) ∧
    ((∀ (m : ℚ) (p v : Vec2), (BodyBundle.new m p v).pos.z = 1) ∧
      (∀ b ∈ stepN sqW 1 twoBodyInit, b.pos.z = 1) ∧
      (∀ b₁ ∈ stepN sqW 1 twoBodyInit, ∀ b₂ ∈ stepN sqW 1 twoBodyInit,
        (b₁.pos - b₂.pos).z = 0)) :=
  ⟨by decide, planar_z_invariant sqW 1 twoBodyInit (by decide)⟩

/-- C6: on the spec's concrete scenario — masses 200 and 50 at `(0,0)` and
`(100,0)` — one full step with an exact square root (`sqrt 10000 = 100`)
gives body 0 the exact analytic acceleration
`-(unit((0,0)-(100,0))) * (G * 200 * 50 / 100²) / 200 = (1/200, 0)`,
i.e. `(0.005, 0)` (body 1 symmetrically gets `(-1/50, 0)`). -/
theorem concrete_scenario_first_step (sq : ℚ → ℚ) (h : sq 10000 = 100) :
    (step sq twoBodyInit).map Body.acc = [⟨1 / 200, 0⟩, ⟨-1 / 50, 0⟩] ∧
    (1 / 200 : ℚ) = 0.005 := by
  constructor
  · norm_num [step, update_acceleration, outerPass, innerPass, update_velocity,
      movement, Vec3.tryNormalize, h, Vec2.scale, Vec3.scale, Vec2.divScalar,
      Vec3.lengthSquared, BodyBundle.new, G, DT, twoBodyInit, Vec3.mk.injEq,
      Vec2.mk.injEq]
  · norm_num

/-- Witness for C6: the oracle `sqW` takes the exact square root of 10000. -/
theorem concrete_scenario_first_step_witness :
    sqW 10000 = 100 ∧
    ((step sqW twoBodyInit).map Body.acc = [⟨1 / 200, 0⟩, ⟨-1 / 50, 0⟩] ∧
      (1 / 200 : ℚ) = 0.005) :=
  ⟨by norm_num [sqW], concrete_scenario_first_step sqW (by norm_num [sqW])⟩

/-- C3 (code-bug evidence): the accumulator never resets accelerations, so
with bodies of unequal positive masses total momentum drifts.  For the
collinear scenario (masses 200 and 50, both at rest, exact square roots)
momentum is `(0,0)` initially and after one step, but `(-9/400, 0)` after
two steps — momentum is not conserved even in exact arithmetic. -/
theorem momentum_not_conserved_after_two_steps :
    twoBodyRest.all (fun b => decide (0 < b.mass)) = true ∧
    momentum twoBodyRest = ⟨0, 0⟩ ∧
    momentum (stepN sqW 1 twoBodyRest) = ⟨0, 0⟩ ∧
    momentum (stepN sqW 2 twoBodyRest) = ⟨-9 / 400, 0⟩ ∧
    momentum (stepN sqW 2 twoBodyRest) ≠ momentum twoBodyRest := by
  have h0 : momentum twoBodyRest = ⟨0, 0⟩ := by
    norm_num [momentum, twoBodyRest, BodyBundle.new, Vec2.scale, Vec2.zero_def]
  have h1 : momentum (stepN sqW 1 twoBodyRest) = ⟨0, 0⟩ := by
    norm_num [stepN, step, update_acceleration, outerPass, innerPass,
      update_velocity, movement, Vec3.tryNormalize, sqW, Vec2.scale, Vec3.scale,
      Vec2.divScalar, Vec3.lengthSquared, BodyBundle.new, G, DT, twoBodyRest,
      momentum, Vec3.mk.injEq, Vec2.mk.injEq, Vec2.zero_def]
  have h2 : momentum (stepN sqW 2 twoBodyRest) = ⟨-9 / 400, 0⟩ := by
    norm_num [stepN, step, update_acceleration, outerPass, innerPass,
      update_velocity, movement, Vec3.tryNormalize, sqW, Vec2.scale, Vec3.scale,
      Vec2.divScalar, Vec3.lengthSquared, BodyBundle.new, G, DT, twoBodyRest,
      momentum, Vec3.mk.injEq, Vec2.mk.injEq]
  refine ⟨by norm_num [twoBodyRest, BodyBundle.new, List.all], h0, h1, h2, ?_⟩
  rw [h0, h2]
  norm_num [Vec2.mk.injEq]

/-- C4 (code-bug evidence): the acceleration the velocity integrator reads
is not a function of the step's positions and masses alone.  After one step
of the collinear scenario, zeroing the stored accelerations while keeping
every mass, position and velocity identical changes the next
`update_acceleration` output: the stale previous-step acceleration leaks
into the new totals (the source has no reset to zero). -/
theorem acceleration_reads_stale_state :
    ((step sqW twoBodyRest).map (fun b => (b.mass, b.pos, b.vel)) =
      ((step sqW twoBodyRest).map fun b => { b with acc := (0 : Vec2) }).map
        (fun b => (b.mass, b.pos, b.vel))) ∧
    (update_acceleration sqW (step sqW twoBodyRest)).map Body.acc ≠
      (update_acceleration sqW ((step sqW twoBodyRest).map fun b =>
        { b with acc := (0 : Vec2) })).map Body.acc := by
  constructor
  · rw [List.map_map]
    exact List.map_congr_left fun b _ => rfl
  · norm_num [step, update_acceleration, outerPass, innerPass, update_velocity,
      movement, Vec3.tryNormalize, sqW, Vec2.scale, Vec3.scale, Vec2.divScalar,
      Vec3.lengthSquared, BodyBundle.new, G, DT, twoBodyRest, Vec3.mk.injEq,
      Vec2.mk.injEq, Vec2.zero_def]
